import Mathlib

/-!
Verification of the real-time feedback control core of the lab_control
repository: the PID controller (src/control/pid_controller.py) and the
feedback loop driver (src/control/feedback_loop.py).

Numeric values are modelled as exact rationals; the wall-clock elapsed time
`dt` that the Python code computes from `time.time()` is passed to each call
explicitly, since it is an environment input.
-/

/-- Mirror of `np.clip(a, lo, hi)`: `min (max a lo) hi`. -/
def clip (x lo hi : ℚ) : ℚ := min (max x lo) hi

/-- State of `PIDController` (src/control/pid_controller.py): gains `kp, ki, kd`,
output limits `output_min, output_max`, the integral accumulator `integral`
and the previous error `last_error`.  The `last_time` timestamp is not part of
the model state: the elapsed time it induces is passed to `update` directly. -/
structure PIDController where
  kp : ℚ
  ki : ℚ
  kd : ℚ
  output_min : ℚ
  output_max : ℚ
  integral : ℚ
  last_error : ℚ
deriving DecidableEq

namespace PIDController

/-- Mirror of `PIDController.__init__(kp, ki, kd, (omin, omax))`:
`integral = 0.0`, `last_error = 0.0`. -/
def init (kp ki kd omin omax : ℚ) : PIDController :=
  { kp := kp, ki := ki, kd := kd, output_min := omin, output_max := omax,
    integral := 0, last_error := 0 }

/-- Mirror of the `dt` floor in `update`: `if dt <= 0: dt = 0.001`. -/
def effDt (dtRaw : ℚ) : ℚ := if dtRaw ≤ 0 then 1/1000 else dtRaw

/-- Mirror of `PIDController.update(error)`.  `dtRaw` is the measured elapsed
time `current_time - self.last_time`.  Returns the new state and the output. -/
def update (s : PIDController) (error dtRaw : ℚ) : PIDController × ℚ :=
  let dt := effDt dtRaw
  let p_term := s.kp * error
  let integral1 := s.integral + error * dt
  let i_term := s.ki * integral1
  let derivative := (error - s.last_error) / dt
  let d_term := s.kd * derivative
  let output := clip (p_term + i_term + d_term) s.output_min s.output_max
  let integral2 := if output ≠ p_term + i_term + d_term
                   then integral1 - error * dt else integral1
  ({ s with integral := integral2, last_error := error }, output)

/-- Mirror of `PIDController.reset()`: zero the accumulator and previous error
(the timestamp resample has no counterpart in the model state). -/
def reset (s : PIDController) : PIDController :=
  { s with integral := 0, last_error := 0 }

/-- The unclamped output `raw_output = p_term + i_term + d_term` of `update`,
written out in terms of the pre-call state. -/
def rawOutput (s : PIDController) (error dtRaw : ℚ) : ℚ :=
  s.kp * error + s.ki * (s.integral + error * effDt dtRaw)
    + s.kd * ((error - s.last_error) / effDt dtRaw)

/-- Run a sequence of `update` calls; each input is an `(error, dtRaw)` pair.
Returns the final state and the list of outputs, in call order. -/
def runUpdates (s : PIDController) : List (ℚ × ℚ) → PIDController × List ℚ
  | [] => (s, [])
  | i :: rest =>
    let r := update s i.1 i.2
    let r2 := runUpdates r.1 rest
    (r2.1, r.2 :: r2.2)

end PIDController

section PIDHelpers

/-- The gains and output limits of a controller are unchanged by `update`. -/
theorem update_preserves_params (s : PIDController) (e dt : ℚ) :
    (PIDController.update s e dt).1.kp = s.kp ∧
    (PIDController.update s e dt).1.ki = s.ki ∧
    (PIDController.update s e dt).1.kd = s.kd ∧
    (PIDController.update s e dt).1.output_min = s.output_min ∧
    (PIDController.update s e dt).1.output_max = s.output_max := by
  refine ⟨rfl, rfl, rfl, rfl, rfl⟩

/-- With zero integral and derivative gains a single `update` returns exactly
the clamped proportional term. -/
theorem update_output_p_only (s : PIDController) (e dt : ℚ)
    (hki : s.ki = 0) (hkd : s.kd = 0) :
    (PIDController.update s e dt).2 = clip (s.kp * e) s.output_min s.output_max := by
  simp [PIDController.update, hki, hkd]

/-- `clip` lands in the interval whenever the interval is nonempty. -/
theorem clip_mem (x lo hi : ℚ) (h : lo ≤ hi) : lo ≤ clip x lo hi ∧ clip x lo hi ≤ hi :=
  ⟨le_min (le_max_right x lo) h, min_le_right _ _⟩

end PIDHelpers

/-- C1: in every call to `update`, if clamping changed the value
(`output ≠ raw_output`) the integral accumulator is exactly restored to its
pre-call value, and otherwise it is the pre-call value plus `error * dt`. -/
theorem C1_anti_windup (s : PIDController) (e dtRaw : ℚ) :
    (PIDController.update s e dtRaw).1.integral =
      if clip (PIDController.rawOutput s e dtRaw) s.output_min s.output_max ≠
          PIDController.rawOutput s e dtRaw
      then s.integral
      else s.integral + e * PIDController.effDt dtRaw := by
  show (if clip (PIDController.rawOutput s e dtRaw) s.output_min s.output_max ≠
          PIDController.rawOutput s e dtRaw
        then s.integral + e * PIDController.effDt dtRaw - e * PIDController.effDt dtRaw
        else s.integral + e * PIDController.effDt dtRaw) = _
  split_ifs with h
  · ring
  · rfl

/-- C2: with `ki = 0` and `kd = 0`, every call in every sequence of `update`
calls returns exactly `clip (kp * error) output_min output_max`, regardless of
the error history and of the elapsed `dt` values. -/
theorem C2_p_only_outputs (kp omin omax : ℚ) (inputs : List (ℚ × ℚ)) :
    (PIDController.runUpdates (PIDController.init kp 0 0 omin omax) inputs).2 =
      inputs.map (fun i => clip (kp * i.1) omin omax) := by
  suffices h : ∀ (s : PIDController), s.ki = 0 → s.kd = 0 →
      (PIDController.runUpdates s inputs).2 =
        inputs.map (fun i => clip (s.kp * i.1) s.output_min s.output_max) from
    h _ rfl rfl
  induction inputs with
  | nil => intro s _ _; rfl
  | cons i rest ih =>
    intro s hki hkd
    show (PIDController.update s i.1 i.2).2 ::
        (PIDController.runUpdates (PIDController.update s i.1 i.2).1 rest).2 = _
    rw [update_output_p_only s i.1 i.2 hki hkd,
        ih (PIDController.update s i.1 i.2).1
          (by rw [(update_preserves_params s i.1 i.2).2.1, hki])
          (by rw [(update_preserves_params s i.1 i.2).2.2.1, hkd])]
    rfl

/-- C3: when `output_min ≤ output_max`, every output produced along any
sequence of `update` calls lies in the closed interval
`[output_min, output_max]`. -/
theorem C3_outputs_bounded (s : PIDController)
    (h : s.output_min ≤ s.output_max) (inputs : List (ℚ × ℚ)) :
    ∀ o ∈ (PIDController.runUpdates s inputs).2,
      s.output_min ≤ o ∧ o ≤ s.output_max := by
  induction inputs generalizing s with
  | nil => intro o ho; cases ho
  | cons i rest ih =>
    intro o ho
    have hcons : (PIDController.runUpdates s (i :: rest)).2 =
        (PIDController.update s i.1 i.2).2 ::
          (PIDController.runUpdates (PIDController.update s i.1 i.2).1 rest).2 := rfl
    rw [hcons, List.mem_cons] at ho
    rcases ho with ho | ho
    · subst ho
      exact clip_mem _ _ _ h
    · have hmin := (update_preserves_params s i.1 i.2).2.2.2.1
      have hmax := (update_preserves_params s i.1 i.2).2.2.2.2
      have := ih (PIDController.update s i.1 i.2).1 (by rw [hmin, hmax]; exact h) o ho
      rw [hmin, hmax] at this
      exact this

/-- Witness for C3 at a concrete controller and input sequence. -/
theorem C3_witness :
    (PIDController.init 1 1 1 0 100).output_min ≤
      (PIDController.init 1 1 1 0 100).output_max ∧
    ∀ o ∈ (PIDController.runUpdates (PIDController.init 1 1 1 0 100)
        [(5, 1), (-7, 1)]).2,
      (PIDController.init 1 1 1 0 100).output_min ≤ o ∧
        o ≤ (PIDController.init 1 1 1 0 100).output_max :=
  ⟨by decide, C3_outputs_bounded (PIDController.init 1 1 1 0 100) (by decide)
    [(5, 1), (-7, 1)]⟩

/-- C6: `reset()` followed by `update e` yields the same output as a freshly
constructed controller with the same gains and limits receiving `update e` as
its first call, when both calls observe the same elapsed time. -/
theorem C6_reset_equals_fresh (s : PIDController) (e dtRaw : ℚ) :
    (PIDController.update (PIDController.reset s) e dtRaw).2 =
      (PIDController.update
        (PIDController.init s.kp s.ki s.kd s.output_min s.output_max) e dtRaw).2 := rfl

/-- C7: the elapsed time actually used by `update` is always strictly
positive (so the derivative divisor is never zero and `update` is total), a
measured `dt ≤ 0` being replaced by the floor `0.001`; the returned output is
the clamp of `raw_output` computed with that positive divisor. -/
theorem C7_dt_floor (s : PIDController) (e dtRaw : ℚ) :
    0 < PIDController.effDt dtRaw ∧
    (dtRaw ≤ 0 → PIDController.effDt dtRaw = 1/1000) ∧
    (PIDController.update s e dtRaw).2 =
      clip (PIDController.rawOutput s e dtRaw) s.output_min s.output_max := by
  refine ⟨?_, ?_, rfl⟩
  · unfold PIDController.effDt
    split_ifs with hle
    · norm_num
    · exact lt_of_not_le hle
  · intro hle
    unfold PIDController.effDt
    rw [if_pos hle]

/-- Witness for C7 at a concrete controller, error and negative elapsed time. -/
theorem C7_witness :
    0 < PIDController.effDt (-1) ∧ PIDController.effDt (-1) = 1/1000 :=
  ⟨(C7_dt_floor (PIDController.init 1 1 1 0 100) 2 (-1)).1,
   (C7_dt_floor (PIDController.init 1 1 1 0 100) 2 (-1)).2.1 (by norm_num)⟩

/-- Mirror of the `ControlSetpoint` dataclass (src/control/feedback_loop.py). -/
structure ControlSetpoint where
  target_value : ℚ
  tolerance : ℚ
  parameter_name : String
deriving DecidableEq

/-- Run state of `FeedbackLoop` (src/control/feedback_loop.py): the `_running`
flag, the optional setpoint, the owned controller state, the last error and
control output, the cycle counter and the two bounded history lists. -/
structure FeedbackLoop where
  running : Bool
  setpoint : Option ControlSetpoint
  pid : PIDController
  last_error : ℚ
  last_control_output : ℚ
  loop_count : ℕ
  error_history : List ℚ
  output_history : List ℚ
deriving DecidableEq

/-- Environment input consumed by one iteration of `_control_loop`:
`image = none` models a failed acquisition, `image = some fs` models a
successful acquisition whose processed result has feature map `fs`
(`result.features`); `dtRaw` is the elapsed time the controller observes; and
`boardOk = false` models `control_board.set_laser_power` raising. -/
structure CycleInput where
  image : Option (List (String × ℚ))
  dtRaw : ℚ
  boardOk : Bool
deriving DecidableEq

/-- Mirror of `result.features.get(name, 0.0)`: dictionary lookup with
default `0.0` for an absent key. -/
def featureGet (features : List (String × ℚ)) (name : String) : ℚ :=
  (features.lookup name).getD 0

/-- Mirror of the history bookkeeping of `_control_loop`: append, then
`pop(0)` when the length exceeds 1000. -/
def pushHistory (h : List ℚ) (x : ℚ) : List ℚ :=
  let h2 := h ++ [x]
  if 1000 < h2.length then h2.tail else h2

namespace FeedbackLoop

/-- Mirror of one iteration of `FeedbackLoop._control_loop` (the body of the
`while` loop, with the `try` block's `continue`s and the exception handler).
Returns the new state together with `some output` when
`control_board.set_laser_power(output)` was called and returned, `none` when
the cycle was skipped (no image, no setpoint) or the board call raised. -/
def controlCycle (s : FeedbackLoop) (inp : CycleInput) : FeedbackLoop × Option ℚ :=
  match inp.image with
  | none => (s, none)
  | some features =>
    match s.setpoint with
    | none => (s, none)
    | some sp =>
      let measured := featureGet features sp.parameter_name
      let error := sp.target_value - measured
      let r := PIDController.update s.pid error inp.dtRaw
      let s2 := { s with last_error := error, pid := r.1, last_control_output := r.2 }
      if inp.boardOk then
        ({ s2 with loop_count := s2.loop_count + 1,
                   error_history := pushHistory s2.error_history error,
                   output_history := pushHistory s2.output_history r.2 },
         some r.2)
      else
        (s2, none)

/-- Run `_control_loop` for a given list of per-cycle environment inputs.
Returns the final state and, per cycle, the command delivered to the board
(`none` when the cycle delivered none). -/
def runLoop (s : FeedbackLoop) : List CycleInput → FeedbackLoop × List (Option ℚ)
  | [] => (s, [])
  | i :: rest =>
    let r := controlCycle s i
    let r2 := runLoop r.1 rest
    (r2.1, r.2 :: r2.2)

/-- The `(error, output)` pairs appended to the history buffers during a run,
in order: one pair per cycle that reaches the bookkeeping step. -/
def runRecords (s : FeedbackLoop) : List CycleInput → List (ℚ × ℚ)
  | [] => []
  | i :: rest =>
    let r := controlCycle s i
    (match r.2 with
     | some o => [(r.1.last_error, o)]
     | none => []) ++ runRecords r.1 rest

/-- Mirror of `FeedbackLoop.stop()` as far as run state is concerned: a
no-op when `_running` is already false, otherwise it clears the flag (the
event signalling and thread join have no counterpart in the state model). -/
def stop (s : FeedbackLoop) : FeedbackLoop :=
  if s.running then { s with running := false } else s

end FeedbackLoop

/-- Result record of `FeedbackLoop.get_statistics()`. -/
structure LoopStatistics where
  loop_count : ℕ
  last_error : ℚ
  last_output : ℚ
  rms_error : ℝ
  mean_output : ℝ

/-- Mirror of `FeedbackLoop.get_statistics()`:
`rms_error = np.sqrt(np.mean(np.array(error_history)**2))` and
`mean_output = np.mean(output_history)` when the respective history is
nonempty, `0.0` otherwise. -/
noncomputable def FeedbackLoop.get_statistics (s : FeedbackLoop) : LoopStatistics :=
  { loop_count := s.loop_count
    last_error := s.last_error
    last_output := s.last_control_output
    rms_error :=
      if s.error_history = [] then 0
      else Real.sqrt
        ((((s.error_history.map (fun e => e ^ 2)).sum / s.error_history.length : ℚ) : ℝ))
    mean_output :=
      if s.output_history = [] then 0
      else ((s.output_history.sum / s.output_history.length : ℚ) : ℝ) }

/-- C9: `stop()` on an already-idle loop (running flag false) is a no-op:
the entire run state is unchanged. -/
theorem C9_stop_idempotent_idle (s : FeedbackLoop) (h : s.running = false) :
    FeedbackLoop.stop s = s := by
  simp [FeedbackLoop.stop, h]

/-- A concrete idle loop driver used as a witness state. -/
def idleLoop : FeedbackLoop :=
  { running := false, setpoint := none,
    pid := PIDController.init 1 (1/10) (1/100) 0 100,
    last_error := 0, last_control_output := 0, loop_count := 0,
    error_history := [], output_history := [] }

/-- Witness for C9 at a concrete idle loop driver. -/
theorem C9_witness : idleLoop.running = false ∧ FeedbackLoop.stop idleLoop = idleLoop :=
  ⟨rfl, C9_stop_idempotent_idle idleLoop rfl⟩

/-- C10: when the board call raises after the controller produced an output,
the cycle's error and output are already stored in `last_error` and
`last_control_output`, while `loop_count` and both history buffers are
unchanged and no command is delivered; `get_statistics` on the resulting
state therefore reports the new last pair with the old count and history. -/
theorem C10_board_fault (s : FeedbackLoop) (inp : CycleInput)
    (fs : List (String × ℚ)) (sp : ControlSetpoint)
    (himg : inp.image = some fs) (hsp : s.setpoint = some sp)
    (hboard : inp.boardOk = false) :
    (FeedbackLoop.controlCycle s inp).1.last_error =
      sp.target_value - featureGet fs sp.parameter_name ∧
    (FeedbackLoop.controlCycle s inp).1.last_control_output =
      (PIDController.update s.pid
        (sp.target_value - featureGet fs sp.parameter_name) inp.dtRaw).2 ∧
    (FeedbackLoop.controlCycle s inp).1.loop_count = s.loop_count ∧
    (FeedbackLoop.controlCycle s inp).1.error_history = s.error_history ∧
    (FeedbackLoop.controlCycle s inp).1.output_history = s.output_history ∧
    (FeedbackLoop.controlCycle s inp).2 = none ∧
    (FeedbackLoop.get_statistics (FeedbackLoop.controlCycle s inp).1).last_error =
      sp.target_value - featureGet fs sp.parameter_name ∧
    (FeedbackLoop.get_statistics (FeedbackLoop.controlCycle s inp).1).last_output =
      (PIDController.update s.pid
        (sp.target_value - featureGet fs sp.parameter_name) inp.dtRaw).2 ∧
    (FeedbackLoop.get_statistics (FeedbackLoop.controlCycle s inp).1).loop_count =
      s.loop_count := by
  obtain ⟨img, dt, b⟩ := inp
  simp only at himg hboard
  subst himg hboard
  simp [FeedbackLoop.controlCycle, FeedbackLoop.get_statistics, hsp]

/-- A concrete loop driver with an armed setpoint, used as a witness state. -/
def faultLoop : FeedbackLoop :=
  { running := true, setpoint := some ⟨256, 5, "centroid_x"⟩,
    pid := PIDController.init 1 (1/10) (1/100) 0 100,
    last_error := 0, last_control_output := 0, loop_count := 3,
    error_history := [1, 2, 3], output_history := [4, 5, 6] }

/-- A concrete cycle input whose board call raises. -/
def faultInput : CycleInput := ⟨some [("centroid_x", 200)], 1/10, false⟩

/-- Witness for C10 at a concrete state and faulting cycle input. -/
theorem C10_witness :
    (FeedbackLoop.controlCycle faultLoop faultInput).1.loop_count =
      faultLoop.loop_count ∧
    (FeedbackLoop.controlCycle faultLoop faultInput).1.error_history =
      faultLoop.error_history ∧
    (FeedbackLoop.controlCycle faultLoop faultInput).2 = none :=
  ⟨(C10_board_fault faultLoop faultInput [("centroid_x", 200)] ⟨256, 5, "centroid_x"⟩
      rfl rfl rfl).2.2.1,
   (C10_board_fault faultLoop faultInput [("centroid_x", 200)] ⟨256, 5, "centroid_x"⟩
      rfl rfl rfl).2.2.2.1,
   (C10_board_fault faultLoop faultInput [("centroid_x", 200)] ⟨256, 5, "centroid_x"⟩
      rfl rfl rfl).2.2.2.2.2.1⟩

/-- C8: `get_statistics` exposes `loop_count`, `last_error` and `last_output`
from the run state; over a nonempty history the rms error squares back to the
mean of the squared errors (and is nonnegative, so it is the square root of
that mean) and the mean output is the arithmetic mean of the output history;
over an empty history both aggregates are exactly 0. -/
theorem C8_statistics (s : FeedbackLoop) :
    (FeedbackLoop.get_statistics s).loop_count = s.loop_count ∧
    (FeedbackLoop.get_statistics s).last_error = s.last_error ∧
    (FeedbackLoop.get_statistics s).last_output = s.last_control_output ∧
    (s.error_history ≠ [] →
      (FeedbackLoop.get_statistics s).rms_error ^ 2 =
        (((s.error_history.map (fun e => e ^ 2)).sum / s.error_history.length : ℚ) : ℝ) ∧
      0 ≤ (FeedbackLoop.get_statistics s).rms_error) ∧
    (s.error_history = [] → (FeedbackLoop.get_statistics s).rms_error = 0) ∧
    (s.output_history ≠ [] →
      (FeedbackLoop.get_statistics s).mean_output =
        ((s.output_history.sum / s.output_history.length : ℚ) : ℝ)) ∧
    (s.output_history = [] → (FeedbackLoop.get_statistics s).mean_output = 0) := by
  refine ⟨rfl, rfl, rfl, ?_, ?_, ?_, ?_⟩
  · intro h
    constructor
    · show (if s.error_history = [] then (0:ℝ) else Real.sqrt _) ^ 2 = _
      rw [if_neg h]
      apply Real.sq_sqrt
      rw [Rat.cast_nonneg]
      apply div_nonneg
      · apply List.sum_nonneg
        intro x hx
        obtain ⟨e, _, rfl⟩ := List.mem_map.mp hx
        exact sq_nonneg e
      · exact Nat.cast_nonneg _
    · show (0:ℝ) ≤ if s.error_history = [] then (0:ℝ) else Real.sqrt _
      rw [if_neg h]
      exact Real.sqrt_nonneg _
  · intro h
    show (if s.error_history = [] then (0:ℝ) else Real.sqrt _) = 0
    rw [if_pos h]
  · intro h
    show (if s.output_history = [] then (0:ℝ) else _) = _
    rw [if_neg h]
  · intro h
    show (if s.output_history = [] then (0:ℝ) else _) = 0
    rw [if_pos h]

/-- A concrete loop driver with nonempty histories, used as a witness state. -/
def statsLoop : FeedbackLoop :=
  { running := false, setpoint := none, pid := PIDController.init 1 0 0 0 100,
    last_error := 1, last_control_output := 2, loop_count := 2,
    error_history := [3, 4], output_history := [5, 7] }

/-- Witness for C8 at a concrete run state with nonempty histories. -/
theorem C8_witness :
    statsLoop.error_history ≠ [] ∧ statsLoop.output_history ≠ [] ∧
    (FeedbackLoop.get_statistics statsLoop).rms_error ^ 2 =
      (((statsLoop.error_history.map (fun e => e ^ 2)).sum /
          statsLoop.error_history.length : ℚ) : ℝ) ∧
    (FeedbackLoop.get_statistics statsLoop).mean_output =
      ((statsLoop.output_history.sum / statsLoop.output_history.length : ℚ) : ℝ) :=
  ⟨by decide, by decide,
   ((C8_statistics statsLoop).2.2.2.1 (by decide)).1,
   (C8_statistics statsLoop).2.2.2.2.2.1 (by decide)⟩

/-- The history push step, with its condition written on the pre-push length. -/
theorem pushHistory_eq (h : List ℚ) (x : ℚ) :
    pushHistory h x = if 1000 < h.length + 1 then (h ++ [x]).tail else h ++ [x] := by
  simp [pushHistory]

/-- Folding the history push over a value list from a start of length at most
1000 yields exactly the suffix of the concatenation that fits the cap. -/
theorem foldl_pushHistory (xs : List ℚ) :
    ∀ h : List ℚ, h.length ≤ 1000 →
      List.foldl pushHistory h xs = (h ++ xs).drop (h.length + xs.length - 1000) := by
  induction xs with
  | nil =>
    intro h hh
    simp only [List.foldl_nil, List.append_nil, List.length_nil, Nat.add_zero]
    have h0 : h.length - 1000 = 0 := by omega
    rw [h0, List.drop_zero]
  | cons x t ih =>
    intro h hh
    show List.foldl pushHistory (pushHistory h x) t = _
    rw [pushHistory_eq]
    by_cases hc : 1000 < h.length + 1
    · have h1000 : h.length = 1000 := by omega
      rw [if_pos hc]
      have hlen : ((h ++ [x]).tail).length ≤ 1000 := by
        simp
        omega
      rw [ih _ hlen]
      have hidx1 : ((h ++ [x]).tail).length + t.length - 1000 = t.length := by
        simp [h1000]
      have hidx2 : h.length + (x :: t).length - 1000 = t.length + 1 := by
        simp [h1000]
      rw [hidx1, hidx2]
      have hsplit : (h ++ [x]).tail ++ t = ((h ++ [x]) ++ t).drop 1 := by
        rw [List.drop_append_eq_append_drop]
        have : 1 - (h ++ [x]).length = 0 := by simp
        rw [this, List.drop_one, List.drop_zero]
      rw [hsplit, List.drop_drop]
      have hassoc : (h ++ [x]) ++ t = h ++ x :: t := by
        rw [List.append_assoc, List.singleton_append]
      rw [hassoc, Nat.add_comm 1 t.length]
    · rw [if_neg hc]
      have hlen : (h ++ [x]).length ≤ 1000 := by
        simp
        omega
      rw [ih _ hlen]
      have hassoc : (h ++ [x]) ++ t = h ++ x :: t := by
        rw [List.append_assoc, List.singleton_append]
      have hidx : (h ++ [x]).length + t.length - 1000 = h.length + (x :: t).length - 1000 := by
        simp
        omega
      rw [hassoc, hidx]

/-- Per-cycle history behaviour: a cycle either leaves both histories (and
the command) untouched, or it delivers a command and pushes exactly the new
`(last_error, output)` pair onto the two histories. -/
theorem controlCycle_histories (s : FeedbackLoop) (i : CycleInput) :
    ((FeedbackLoop.controlCycle s i).2 = none ∧
      (FeedbackLoop.controlCycle s i).1.error_history = s.error_history ∧
      (FeedbackLoop.controlCycle s i).1.output_history = s.output_history) ∨
    (∃ o, (FeedbackLoop.controlCycle s i).2 = some o ∧
      (FeedbackLoop.controlCycle s i).1.error_history =
        pushHistory s.error_history (FeedbackLoop.controlCycle s i).1.last_error ∧
      (FeedbackLoop.controlCycle s i).1.output_history =
        pushHistory s.output_history o) := by
  obtain ⟨img, dt, b⟩ := i
  cases img with
  | none => exact Or.inl ⟨rfl, rfl, rfl⟩
  | some fs =>
    cases hsp : s.setpoint with
    | none =>
      refine Or.inl ?_
      simp [FeedbackLoop.controlCycle, hsp]
    | some sp =>
      cases b with
      | false =>
        refine Or.inl ?_
        simp [FeedbackLoop.controlCycle, hsp]
      | true =>
        refine Or.inr ⟨(PIDController.update s.pid
          (sp.target_value - featureGet fs sp.parameter_name) dt).2, ?_⟩
        simp [FeedbackLoop.controlCycle, hsp]

/-- The history buffers after a run are the fold of the history push over the
recorded `(error, output)` pairs of the run. -/
theorem runLoop_histories (inputs : List CycleInput) :
    ∀ s : FeedbackLoop,
      (FeedbackLoop.runLoop s inputs).1.error_history =
        List.foldl pushHistory s.error_history
          ((FeedbackLoop.runRecords s inputs).map Prod.fst) ∧
      (FeedbackLoop.runLoop s inputs).1.output_history =
        List.foldl pushHistory s.output_history
          ((FeedbackLoop.runRecords s inputs).map Prod.snd) := by
  induction inputs with
  | nil => intro s; exact ⟨rfl, rfl⟩
  | cons i rest ih =>
    intro s
    have hrl : (FeedbackLoop.runLoop s (i :: rest)).1 =
        (FeedbackLoop.runLoop (FeedbackLoop.controlCycle s i).1 rest).1 := rfl
    have hrr : FeedbackLoop.runRecords s (i :: rest) =
        (match (FeedbackLoop.controlCycle s i).2 with
         | some o => [((FeedbackLoop.controlCycle s i).1.last_error, o)]
         | none => []) ++
          FeedbackLoop.runRecords (FeedbackLoop.controlCycle s i).1 rest := rfl
    have hrec := ih (FeedbackLoop.controlCycle s i).1
    rcases controlCycle_histories s i with ⟨h2, he, ho⟩ | ⟨o, h2, he, ho⟩
    · rw [hrl, hrr, h2]
      simp only [List.nil_append]
      rw [he, ho] at hrec
      exact hrec
    · rw [hrl, hrr, h2]
      simp only [List.cons_append, List.nil_append, List.map_cons, List.foldl_cons]
      rw [he, ho] at hrec
      exact hrec

/-- C5: starting from empty histories, after any run the history buffers hold
exactly the most recent at-most-1000 recorded `(error, output)` pairs, in
order (the fold drops precisely the oldest entries beyond the cap), and hence
never more than 1000 entries. -/
theorem C5_history_cap (s : FeedbackLoop) (inputs : List CycleInput)
    (he : s.error_history = []) (ho : s.output_history = []) :
    (FeedbackLoop.runLoop s inputs).1.error_history =
      ((FeedbackLoop.runRecords s inputs).map Prod.fst).drop
        ((FeedbackLoop.runRecords s inputs).length - 1000) ∧
    (FeedbackLoop.runLoop s inputs).1.output_history =
      ((FeedbackLoop.runRecords s inputs).map Prod.snd).drop
        ((FeedbackLoop.runRecords s inputs).length - 1000) ∧
    (FeedbackLoop.runLoop s inputs).1.error_history.length ≤ 1000 ∧
    (FeedbackLoop.runLoop s inputs).1.output_history.length ≤ 1000 := by
  have h1 := (runLoop_histories inputs s).1
  have h2 := (runLoop_histories inputs s).2
  rw [he, foldl_pushHistory _ [] (by simp)] at h1
  rw [ho, foldl_pushHistory _ [] (by simp)] at h2
  simp only [List.nil_append, List.length_nil, Nat.zero_add, List.length_map] at h1 h2
  refine ⟨h1, h2, ?_, ?_⟩
  · rw [h1, List.length_drop, List.length_map]
    omega
  · rw [h2, List.length_drop, List.length_map]
    omega

/-- The setpoint of the end-to-end scenario of the spec. -/
def demoSetpoint : ControlSetpoint := ⟨256, 5, "centroid_x"⟩

/-- A freshly started loop driver with an armed setpoint and a purely
proportional controller with output limits `[0, 100]`. -/
def demoLoop : FeedbackLoop :=
  { running := true, setpoint := some demoSetpoint,
    pid := PIDController.init 1 0 0 0 100,
    last_error := 0, last_control_output := 0, loop_count := 0,
    error_history := [], output_history := [] }

/-- A cycle whose acquisition succeeds and whose pipeline reports
`centroid_x = 200`, with the board call succeeding. -/
def okCycle : CycleInput := ⟨some [("centroid_x", 200)], 1, true⟩

/-- A cycle whose image acquisition fails (`acquire_image()` returns None). -/
def failCycle : CycleInput := ⟨none, 1, true⟩

/-- Ten loop cycles, the third of which fails to acquire an image. -/
def demoInputs : List CycleInput :=
  [okCycle, okCycle, failCycle, okCycle, okCycle,
   okCycle, okCycle, okCycle, okCycle, okCycle]

/-- Witness for C5 at the concrete ten-cycle scenario. -/
theorem C5_witness :
    demoLoop.error_history = [] ∧ demoLoop.output_history = [] ∧
    (FeedbackLoop.runLoop demoLoop demoInputs).1.error_history.length ≤ 1000 ∧
    (FeedbackLoop.runLoop demoLoop demoInputs).1.output_history.length ≤ 1000 :=
  ⟨rfl, rfl, (C5_history_cap demoLoop demoInputs rfl rfl).2.2.1,
   (C5_history_cap demoLoop demoInputs rfl rfl).2.2.2⟩

/-- Counterexample to C4 as stated: in a run of 10 cycles in which the camera
returns no image on cycle 3 and an image on every other cycle (setpoint armed,
pipeline and board succeeding), the cycle counter reaches 9, not 10 — the
`continue` taken on a failed acquisition skips the `loop_count` increment —
while the board is indeed commanded exactly 9 times and not on cycle 3. -/
theorem C4_counterexample :
    (FeedbackLoop.runLoop demoLoop demoInputs).1.loop_count = 9 ∧
    ¬ (FeedbackLoop.runLoop demoLoop demoInputs).1.loop_count = 10 ∧
    ((FeedbackLoop.runLoop demoLoop demoInputs).2.filterMap id).length = 9 ∧
    (FeedbackLoop.runLoop demoLoop demoInputs).2[2]? = some none := by
  decide

/-- C4 (amended): in any run of 10 cycles from a fresh driver with an armed
setpoint, in which the camera returns an image (with arbitrary features and
elapsed times) on every cycle except cycle 3 and the board succeeds, the
cycle counter reaches 9, the board is commanded exactly 9 times, and no
command is delivered on cycle 3. -/
theorem C4_amended_run (sp : ControlSetpoint) (pid0 : PIDController)
    (f0 f1 f3 f4 f5 f6 f7 f8 f9 : List (String × ℚ))
    (d0 d1 d2 d3 d4 d5 d6 d7 d8 d9 : ℚ) :
    (FeedbackLoop.runLoop
      { running := true, setpoint := some sp, pid := pid0, last_error := 0,
        last_control_output := 0, loop_count := 0, error_history := [],
        output_history := [] }
      [⟨some f0, d0, true⟩, ⟨some f1, d1, true⟩, ⟨none, d2, true⟩,
       ⟨some f3, d3, true⟩, ⟨some f4, d4, true⟩, ⟨some f5, d5, true⟩,
       ⟨some f6, d6, true⟩, ⟨some f7, d7, true⟩, ⟨some f8, d8, true⟩,
       ⟨some f9, d9, true⟩]).1.loop_count = 9 ∧
    ((FeedbackLoop.runLoop
      { running := true, setpoint := some sp, pid := pid0, last_error := 0,
        last_control_output := 0, loop_count := 0, error_history := [],
        output_history := [] }
      [⟨some f0, d0, true⟩, ⟨some f1, d1, true⟩, ⟨none, d2, true⟩,
       ⟨some f3, d3, true⟩, ⟨some f4, d4, true⟩, ⟨some f5, d5, true⟩,
       ⟨some f6, d6, true⟩, ⟨some f7, d7, true⟩, ⟨some f8, d8, true⟩,
       ⟨some f9, d9, true⟩]).2.filterMap id).length = 9 ∧
    (FeedbackLoop.runLoop
      { running := true, setpoint := some sp, pid := pid0, last_error := 0,
        last_control_output := 0, loop_count := 0, error_history := [],
        output_history := [] }
      [⟨some f0, d0, true⟩, ⟨some f1, d1, true⟩, ⟨none, d2, true⟩,
       ⟨some f3, d3, true⟩, ⟨some f4, d4, true⟩, ⟨some f5, d5, true⟩,
       ⟨some f6, d6, true⟩, ⟨some f7, d7, true⟩, ⟨some f8, d8, true⟩,
       ⟨some f9, d9, true⟩]).2[2]? = some none := by
  refine ⟨?_, ?_, ?_⟩ <;>
    simp [FeedbackLoop.runLoop, FeedbackLoop.controlCycle, List.filterMap]
